import Mathlib

/-!
Shallow embedding of the ChirpStack gRPC device adder (src/main.go).

The program is a terminal wizard that authenticates against a ChirpStack
server, lets the operator pick a tenant, an application and a device
profile, then bulk-creates devices from a CSV file.  The embedding below
translates the wizard state machine, the three selection-list loaders and
the CSV batch importer into pure Lean functions.  External effects (the
gRPC calls, the dial, the file read) are resolved by explicit inputs:
list responses are parameters, the per-call outcome of the create-device
RPC is an oracle indexed by the call number, and the file read is an
`Except` value.  Go's `records[0][0]` indexing, which can panic, is
modelled with `Option` (`none` = index out of range).
-/

namespace ChirpStack

/-- `item` from src/main.go: a selection-list entry `{title, desc, id}`. -/
structure Item where
  title : String
  desc : String
  id : String
deriving DecidableEq

/-- The wizard states (`state` constants in src/main.go). -/
inductive State where
  | connecting
  | tenantSelect
  | applicationSelect
  | deviceProfileSelect
  | fileSelect
  | processing
  | complete
  | error
deriving DecidableEq

/-- The fields of `api.Tenant` that `loadTenants` reads (`Name`, `Id`). -/
structure TenantRecord where
  name : String
  id : String
deriving DecidableEq

/-- The fields of `api.Application` that `loadApplications` reads. -/
structure AppRecord where
  name : String
  description : String
  id : String
deriving DecidableEq

/-- The fields of `api.DeviceProfile` that `loadDeviceProfiles` reads. -/
structure ProfileRecord where
  name : String
  id : String
deriving DecidableEq

/-- `loadTenants` projection: `item{title: t.Name, desc: t.Name, id: t.Id}`. -/
def tenantsToItems (rs : List TenantRecord) : List Item :=
  rs.map fun t => { title := t.name, desc := t.name, id := t.id }

/-- `loadApplications` projection: `item{title: a.Name, desc: a.Description, id: a.Id}`. -/
def appsToItems (rs : List AppRecord) : List Item :=
  rs.map fun a => { title := a.name, desc := a.description, id := a.id }

/-- `loadDeviceProfiles` projection: `item{title: p.Name, desc: p.Name, id: p.Id}`. -/
def profilesToItems (rs : List ProfileRecord) : List Item :=
  rs.map fun p => { title := p.name, desc := p.name, id := p.id }

/-- The messages of src/main.go (`connectMsg`, `tenantsLoadedMsg`, ...),
plus the user events the bubbletea runtime feeds to `Update`: key presses
(`tea.KeyMsg`, identified by `msg.String()`), list-cursor movement inside a
selection list, and the file picker reporting a chosen file
(`DidSelectFile` returning `(true, path)`).  The `connect` message carries
the outcome of the `grpc.Dial` performed by `handleConnect` when the
message is processed. -/
inductive Msg where
  | key (k : String)
  | cursor (i : Nat)
  | connect (dialOk : Bool)
  | tenantsLoaded (items : List Item)
  | appsLoaded (items : List Item)
  | profilesLoaded (items : List Item)
  | devicesCreated (n : Nat)
  | errorMsg (e : String)
  | fileSelected (path : String)
deriving DecidableEq

/-- The message produced by the `loadTenants` command for a given RPC
response: `errorMsg` on RPC error, else `tenantsLoadedMsg` of the
projected items. -/
def loadTenantsResult (resp : Except String (List TenantRecord)) : Msg :=
  match resp with
  | .error e => .errorMsg e
  | .ok rs => .tenantsLoaded (tenantsToItems rs)

/-- The message produced by the `loadApplications` command. -/
def loadApplicationsResult (resp : Except String (List AppRecord)) : Msg :=
  match resp with
  | .error e => .errorMsg e
  | .ok rs => .appsLoaded (appsToItems rs)

/-- The message produced by the `loadDeviceProfiles` command. -/
def loadProfilesResult (resp : Except String (List ProfileRecord)) : Msg :=
  match resp with
  | .error e => .errorMsg e
  | .ok rs => .profilesLoaded (profilesToItems rs)

/-- The fields of `api.Device` set by the `CreateDeviceRequest` in
`processCSV`. -/
structure Device where
  devEui : String
  name : String
  description : String
  applicationId : String
  deviceProfileId : String
  isDisabled : Bool
deriving DecidableEq

/-- One create-device call issued by the import loop: the request and
whether the RPC succeeded. -/
structure RowStep where
  device : Device
  ok : Bool
deriving DecidableEq

/-- `isHexString`'s per-rune test (the condition in its loop). -/
def isHexChar (c : Char) : Bool :=
  decide (('0' ≤ c ∧ c ≤ '9') ∨ ('a' ≤ c ∧ c ≤ 'f') ∨ ('A' ≤ c ∧ c ≤ 'F'))

/-- `isHexString` from src/main.go: false on the empty string, else true
iff every rune is in `0-9a-fA-F`.  (`len(s) == 0` iff the rune list is
empty.) -/
def isHexString (s : String) : Bool :=
  if s.data.isEmpty then false else s.data.all isHexChar

/-- The `CreateDeviceRequest` device built for one CSV record in
`processCSV`: `devEui = record[0]`, `name = record[1]`,
`description = record[2]` if `len(record) > 2` else `""`,
application/profile ids from the wizard selections, `IsDisabled: false`.
(The loop only builds it after checking `len(record) >= 2`, so the
defaults of `getD` at indices 0 and 1 are unreachable there.) -/
def mkDevice (record : List String) (applicationId deviceProfileId : String) : Device :=
  { devEui := record.getD 0 ""
    name := record.getD 1 ""
    description := if record.length > 2 then record.getD 2 "" else ""
    applicationId := applicationId
    deviceProfileId := deviceProfileId
    isDisabled := false }

/-- The header-detection prologue of `processCSV`:
`start := 0; if len(records) > 0 && !isHexString(records[0][0]) { start = 1 }`.
Go's `records[0][0]` panics when row 0 has no cells; that branch is
`none` here. -/
def startIndex (records : List (List String)) : Option Nat :=
  match records with
  | [] => some 0
  | r0 :: _ =>
    match r0.head? with
    | none => none
    | some c => some (if isHexString c then 0 else 1)

/-- The row loop of `processCSV` (`for i := start; i < len(records); i++`),
applied to the rows from the start index onward.  `callIdx` counts the
create-device RPCs issued so far; `oracle callIdx` is the outcome of the
next RPC.  Returns the final `created` counter and the list of issued
calls in row order.  Rows with fewer than 2 cells are skipped; a failed
call is logged (not modelled) and does not stop the loop; a successful
call increments `created`. -/
def processLoop (appId profId : String) (oracle : Nat → Bool) :
    List (List String) → Nat → Nat × List RowStep
  | [], _ => (0, [])
  | record :: rest, callIdx =>
    if record.length < 2 then
      processLoop appId profId oracle rest callIdx
    else
      let ok := oracle callIdx
      let next := processLoop appId profId oracle rest (callIdx + 1)
      (if ok then next.1 + 1 else next.1,
        { device := mkDevice record appId profId, ok := ok } :: next.2)

/-- `processCSV` from src/main.go.  `readResult` is the combined outcome of
`os.Open` + `csv.ReadAll` (`error` = either failed).  On read failure it
returns `errorMsg` at once, with no call issued.  Otherwise it detects the
header, runs the row loop and returns `devicesCreatedMsg created`,
together with the trace of issued create-device calls.  `none` is Go's
index-out-of-range panic in the header check. -/
def processCSV (appId profId : String) (oracle : Nat → Bool)
    (readResult : Except String (List (List String))) :
    Option (Msg × List RowStep) :=
  match readResult with
  | .error e => some (.errorMsg e, [])
  | .ok records =>
    match startIndex records with
    | none => none
    | some start =>
      let r := processLoop appId profId oracle (records.drop start) 0
      some (.devicesCreated r.1, r.2)

/-- The fields of the bubbletea `model` that the wizard logic reads or
writes.  Each selection list is modelled by its loaded items plus a cursor
(`list.Model.SelectedItem()` = the item at the cursor, if any).
`tokenInputValue` is the text in the API-token input; `inputKeys` records
the key events actually delivered to that input (keys the global quit /
enter interception did not swallow). -/
structure Model where
  state : State
  sessionOpen : Bool
  apiToken : String
  tokenInputValue : String
  inputKeys : List String
  tenantItems : List Item
  tenantCursor : Nat
  appItems : List Item
  appCursor : Nat
  profileItems : List Item
  profileCursor : Nat
  selectedTenant : String
  selectedApp : String
  selectedProfile : String
  devicesCreated : Nat
  err : Option String
deriving DecidableEq

/-- `initialModel()` from src/main.go (the logic-relevant fields). -/
def initialModel : Model :=
  { state := .connecting
    sessionOpen := false
    apiToken := ""
    tokenInputValue := ""
    inputKeys := []
    tenantItems := []
    tenantCursor := 0
    appItems := []
    appCursor := 0
    profileItems := []
    profileCursor := 0
    selectedTenant := ""
    selectedApp := ""
    selectedProfile := ""
    devicesCreated := 0
    err := none }

/-- The asynchronous commands `Update` can return; a pending command later
delivers its resulting message back to `Update`. -/
inductive Pending where
  | emitConnect
  | emitError (e : String)
  | loadTenants
  | loadApplications (tenantId : String)
  | loadDeviceProfiles (tenantId : String)
  | runImport (appId : String) (profId : String) (path : String)
deriving DecidableEq

/-- The command part of `Update`'s return value: nothing, `tea.Quit`
(carrying whether `m.client.Close()` was called, i.e. whether a session
was open), or an asynchronous command. -/
inductive Cmd where
  | nil
  | quit (closedSession : Bool)
  | pend (p : Pending)
deriving DecidableEq

/-- The pending commands a returned `Cmd` adds to the in-flight set. -/
def emitted : Cmd → List Pending
  | .pend p => [p]
  | _ => []

/-- `handleEnter` from src/main.go. -/
def handleEnter (m : Model) : Model × Cmd :=
  match m.state with
  | .connecting =>
    if m.tokenInputValue = "" then (m, .nil)
    else ({ m with apiToken := m.tokenInputValue }, .pend .emitConnect)
  | .tenantSelect =>
    match m.tenantItems[m.tenantCursor]? with
    | some it => ({ m with selectedTenant := it.id }, .pend (.loadApplications it.id))
    | none => (m, .nil)
  | .applicationSelect =>
    match m.appItems[m.appCursor]? with
    | some it => ({ m with selectedApp := it.id }, .pend (.loadDeviceProfiles m.selectedTenant))
    | none => (m, .nil)
  | .deviceProfileSelect =>
    match m.profileItems[m.profileCursor]? with
    | some it => ({ m with selectedProfile := it.id, state := .fileSelect }, .nil)
    | none => (m, .nil)
  | _ => (m, .nil)

/-- `handleConnect` from src/main.go: on dial success, store the
connection and load tenants; on failure, return a command producing an
error message. -/
def handleConnect (m : Model) (dialOk : Bool) : Model × Cmd :=
  if dialOk then ({ m with sessionOpen := true }, .pend .loadTenants)
  else (m, .pend (.emitError "failed to connect"))

/-- The state-specific dispatch at the bottom of `Update`: in
`stateConnecting` a key goes to the token input; in the selection states
list messages move the cursor; in `stateFileSelect` the file picker's
selection triggers `m.processCSV(path)` (note: the model, and so
`m.state`, is returned unchanged there). -/
def stateDispatch (m : Model) (msg : Msg) : Model × Cmd :=
  match m.state, msg with
  | .connecting, .key k =>
    ({ m with tokenInputValue := m.tokenInputValue ++ k,
              inputKeys := m.inputKeys ++ [k] }, .nil)
  | .tenantSelect, .cursor i => ({ m with tenantCursor := i }, .nil)
  | .applicationSelect, .cursor i => ({ m with appCursor := i }, .nil)
  | .deviceProfileSelect, .cursor i => ({ m with profileCursor := i }, .nil)
  | .fileSelect, .fileSelected path =>
    (m, .pend (.runImport m.selectedApp m.selectedProfile path))
  | _, _ => (m, .nil)

/-- `Update` from src/main.go.  Key messages are intercepted first:
`ctrl+c`/`q` quit (closing the session if open) in every state, `enter`
goes to `handleEnter`; every other message falls through to the typed
message cases and then to the state-specific dispatch.  The `...LoadedMsg`
cases rebuild the corresponding list (cursor reset to 0) and set the
state. -/
def update (m : Model) (msg : Msg) : Model × Cmd :=
  match msg with
  | .key k =>
    if k = "ctrl+c" ∨ k = "q" then (m, .quit m.sessionOpen)
    else if k = "enter" then handleEnter m
    else stateDispatch m (.key k)
  | .connect dialOk => handleConnect m dialOk
  | .tenantsLoaded items =>
    ({ m with tenantItems := items, tenantCursor := 0, state := .tenantSelect }, .nil)
  | .appsLoaded items =>
    ({ m with appItems := items, appCursor := 0, state := .applicationSelect }, .nil)
  | .profilesLoaded items =>
    ({ m with profileItems := items, profileCursor := 0, state := .deviceProfileSelect }, .nil)
  | .devicesCreated n => ({ m with devicesCreated := n, state := .complete }, .nil)
  | .errorMsg e => ({ m with err := some e, state := .error }, .nil)
  | .cursor i => stateDispatch m (.cursor i)
  | .fileSelected path => stateDispatch m (.fileSelected path)

/-- Messages originating from the user (not from a pending command). -/
def userEvent : Msg → Prop
  | .key _ => True
  | .cursor _ => True
  | .fileSelected _ => True
  | _ => False

/-- Which message a pending command can deliver: its closure's possible
return values, over all RPC responses / file contents. -/
def completes (p : Pending) (msg : Msg) : Prop :=
  match p with
  | .emitConnect => ∃ ok, msg = .connect ok
  | .emitError e => msg = .errorMsg e
  | .loadTenants => ∃ resp, msg = loadTenantsResult resp
  | .loadApplications _ => ∃ resp, msg = loadApplicationsResult resp
  | .loadDeviceProfiles _ => ∃ resp, msg = loadProfilesResult resp
  | .runImport a pr _path =>
    ∃ oracle readResult res calls,
      processCSV a pr oracle readResult = some (res, calls) ∧ msg = res

/-- Reachability of a wizard configuration (model + in-flight commands):
the bubbletea event loop delivers user events and completions of pending
commands, one at a time, each filtered by a predicate `G` restricting
which messages the environment can produce. -/
inductive Reach (G : Msg → Prop) : Model → List Pending → Prop where
  | init : Reach G initialModel []
  | user (m : Model) (P : List Pending) (msg : Msg) :
      Reach G m P → userEvent msg → G msg →
      Reach G (update m msg).1 (P ++ emitted (update m msg).2)
  | async (m : Model) (P : List Pending) (p : Pending) (msg : Msg) :
      Reach G m P → p ∈ P → completes p msg → G msg →
      Reach G (update m msg).1 (P.erase p ++ emitted (update m msg).2)

/-- Every item in a list has a non-empty id. -/
def goodItemsB (items : List Item) : Bool :=
  items.all fun it => !(it.id == "")

/-- Environment restriction for the amended C7 invariant: every selection
list delivered by the server carries non-empty ids, and the file picker
reports a non-empty path. -/
def GoodMsgB : Msg → Bool
  | .tenantsLoaded items => goodItemsB items
  | .appsLoaded items => goodItemsB items
  | .profilesLoaded items => goodItemsB items
  | .fileSelected path => !(path == "")
  | _ => true

/-- Propositional form of `GoodMsgB`. -/
def GoodTrace (msg : Msg) : Prop := GoodMsgB msg = true

/-- Propositional form of `goodItemsB`. -/
def goodItemsP (items : List Item) : Prop := ∀ it ∈ items, it.id ≠ ""

/-- Facts about a pending command that hold whenever it is in flight (the
heart of the C7 invariant): loader commands only exist once the ids they
depend on are recorded and non-empty, and an in-flight import carries
non-empty ids and a non-empty path. -/
def pendingInv (m : Model) : Pending → Prop
  | .loadApplications t => t ≠ "" ∧ m.selectedTenant ≠ ""
  | .loadDeviceProfiles _ => m.selectedTenant ≠ "" ∧ m.selectedApp ≠ ""
  | .runImport a pr f => a ≠ "" ∧ pr ≠ "" ∧ f ≠ "" ∧ m.selectedTenant ≠ ""
  | _ => True

/-- Inductive invariant for `Reach GoodTrace`: loaded lists have non-empty
ids, each selection state implies the earlier selections are recorded and
non-empty, and every in-flight command satisfies `pendingInv`. -/
def Inv (m : Model) (P : List Pending) : Prop :=
  goodItemsP m.tenantItems ∧ goodItemsP m.appItems ∧ goodItemsP m.profileItems ∧
  (m.state = State.applicationSelect → m.selectedTenant ≠ "") ∧
  (m.state = State.deviceProfileSelect → m.selectedTenant ≠ "" ∧ m.selectedApp ≠ "") ∧
  (m.state = State.fileSelect →
    m.selectedTenant ≠ "" ∧ m.selectedApp ≠ "" ∧ m.selectedProfile ≠ "") ∧
  (∀ p ∈ P, pendingInv m p)

/-- The model after a complete successful wizard run (token `"t"`, tenant
`"T"`, application `"A"`, profile `"P"`, file `devices.csv`), at the
moment the import command has just been issued. -/
def wizardRunModel : Model :=
  { state := .fileSelect
    sessionOpen := true
    apiToken := "t"
    tokenInputValue := "t"
    inputKeys := ["t"]
    tenantItems := [{ title := "ten", desc := "ten", id := "T" }]
    tenantCursor := 0
    appItems := [{ title := "app", desc := "d", id := "A" }]
    appCursor := 0
    profileItems := [{ title := "prof", desc := "prof", id := "P" }]
    profileCursor := 0
    selectedTenant := "T"
    selectedApp := "A"
    selectedProfile := "P"
    devicesCreated := 0
    err := none }

/-- The in-flight commands at that moment: the import itself. -/
def wizardRunPending : List Pending := [.runImport "A" "P" "devices.csv"]

/-- Same run, but the server answered every list request with records
whose `Id` field is the empty string, and the selections went through
unhindered (the code never checks an id for emptiness). -/
def emptyIdRunModel : Model :=
  { state := .fileSelect
    sessionOpen := true
    apiToken := "t"
    tokenInputValue := "t"
    inputKeys := ["t"]
    tenantItems := [{ title := "ten", desc := "ten", id := "" }]
    tenantCursor := 0
    appItems := [{ title := "app", desc := "d", id := "" }]
    appCursor := 0
    profileItems := [{ title := "prof", desc := "prof", id := "" }]
    profileCursor := 0
    selectedTenant := ""
    selectedApp := ""
    selectedProfile := ""
    devicesCreated := 0
    err := none }

/-- In-flight commands of the empty-id run: an import with empty ids. -/
def emptyIdRunPending : List Pending := [.runImport "" "" "f.csv"]


/-! ## Basic lemmas about the importer -/

/-- The `created` counter equals the number of successful calls in the
call trace. -/
theorem processLoop_count (appId profId : String) (oracle : Nat → Bool) :
    ∀ (rows : List (List String)) (callIdx : Nat),
      (processLoop appId profId oracle rows callIdx).1
        = ((processLoop appId profId oracle rows callIdx).2.filter fun s => s.ok).length := by
  intro rows
  induction rows with
  | nil => intro callIdx; rfl
  | cons record rest ih =>
    intro callIdx
    by_cases h : record.length < 2
    · simp only [processLoop, if_pos h]
      exact ih callIdx
    · simp only [processLoop, if_neg h]
      cases hok : oracle callIdx <;>
        simp [List.filter, hok, ih (callIdx + 1)]

/-- A result message of `processCSV` is a created count or a read error. -/
theorem processCSV_msg_shape (appId profId : String) (oracle : Nat → Bool)
    (readResult : Except String (List (List String))) (res : Msg) (calls : List RowStep)
    (h : processCSV appId profId oracle readResult = some (res, calls)) :
    (∃ n, res = Msg.devicesCreated n) ∨ (∃ e, res = Msg.errorMsg e) := by
  cases readResult with
  | error e =>
    simp only [processCSV, Option.some.injEq, Prod.mk.injEq] at h
    exact Or.inr ⟨e, h.1.symm⟩
  | ok records =>
    cases hs : startIndex records with
    | none => simp [processCSV, hs] at h
    | some start =>
      simp only [processCSV, hs, Option.some.injEq, Prod.mk.injEq] at h
      exact Or.inl ⟨_, h.1.symm⟩

/-! ## C1: best-effort batch -/

/-- Claim C1: during `processCSV`, a per-row create failure never aborts
the batch: whenever the header check does not panic, the importer returns
a `devicesCreatedMsg` (never an error) whose count is exactly the number
of successful create calls in the issued call trace; the wizard maps that
message to the Complete state; and in the concrete 5-row scenario where
the third call fails, the result is `created = 4` with all 5 calls
issued. -/
theorem C1_best_effort_batch :
    (∀ (appId profId : String) (oracle : Nat → Bool) (records : List (List String))
        (start : Nat),
      startIndex records = some start →
      ∃ calls : List RowStep,
        processCSV appId profId oracle (Except.ok records)
          = some (.devicesCreated ((calls.filter fun s => s.ok).length), calls))
    ∧ (∀ (m : Model) (n : Nat),
        (update m (.devicesCreated n)).1.state = State.complete
          ∧ (update m (.devicesCreated n)).1.devicesCreated = n)
    ∧ ((processCSV "app1" "prof1" (fun i => if i = 2 then false else true)
          (Except.ok [["01","d1"],["02","d2"],["03","d3"],["04","d4"],["05","d5"]])).map
            (fun r => (r.1, r.2.length)) = some (.devicesCreated 4, 5)) := by
  refine ⟨?_, fun m n => ⟨rfl, rfl⟩, by decide⟩
  intro appId profId oracle records start h
  refine ⟨(processLoop appId profId oracle (records.drop start) 0).2, ?_⟩
  simp only [processCSV, h, ← processLoop_count]

/-- Witness for C1 at a concrete one-row file. -/
theorem C1_witness :
    startIndex [["04","n"]] = some 0 ∧
    ∃ calls : List RowStep,
      processCSV "a" "p" (fun _ => true) (Except.ok [["04","n"]])
        = some (.devicesCreated ((calls.filter fun s => s.ok).length), calls) :=
  ⟨by decide, C1_best_effort_batch.1 "a" "p" (fun _ => true) [["04","n"]] 0 (by decide)⟩

/-! ## C2: header detection -/

/-- Claim C2: `isHexString` accepts exactly the non-empty strings of
characters `0-9a-fA-F`; when row 0 has a first cell, processing starts at
row 1 exactly when that cell is not such a hex string (else row 0); an
empty record list starts at 0; `processCSV` processes the rows from the
start index onward; `"dev_eui"` makes row 0 a header and `"04ABEF01"`
makes it data. -/
theorem C2_header_detection :
    (∀ s : String, isHexString s = true ↔
        s.data ≠ [] ∧ ∀ c ∈ s.data,
          ('0' ≤ c ∧ c ≤ '9') ∨ ('a' ≤ c ∧ c ≤ 'f') ∨ ('A' ≤ c ∧ c ≤ 'F'))
    ∧ (∀ (r0 : List String) (rest : List (List String)) (c : String),
        r0.head? = some c →
        startIndex (r0 :: rest) = some (if isHexString c then 0 else 1))
    ∧ startIndex ([] : List (List String)) = some 0
    ∧ (∀ (appId profId : String) (oracle : Nat → Bool) (records : List (List String))
          (start : Nat),
        startIndex records = some start →
        processCSV appId profId oracle (Except.ok records)
          = some (.devicesCreated (processLoop appId profId oracle (records.drop start) 0).1,
              (processLoop appId profId oracle (records.drop start) 0).2))
    ∧ startIndex [["dev_eui","name"],["04AB","n"]] = some 1
    ∧ startIndex [["04ABEF01","n"]] = some 0 := by
  refine ⟨?_, ?_, rfl, ?_, by decide, by decide⟩
  · intro s
    by_cases h : s.data = []
    · simp [isHexString, h]
    · simp [isHexString, List.isEmpty_iff, h, List.all_eq_true, isHexChar]
  · intro r0 rest c h
    simp [startIndex, h]
  · intro appId profId oracle records start h
    simp [processCSV, h]

/-- Witness for C2 on the header row `["dev_eui","name"]`. -/
theorem C2_witness :
    (["dev_eui","name"] : List String).head? = some "dev_eui"
    ∧ startIndex [["dev_eui","name"]] = some (if isHexString "dev_eui" then 0 else 1) :=
  ⟨rfl, C2_header_detection.2.1 ["dev_eui","name"] [] "dev_eui" rfl⟩

/-! ## C3: per-row request construction -/

/-- Claim C3: for a processed row with at least two cells, the issued
create-device call carries `devEui = cell 0`, `name = cell 1`,
`description = cell 2` when present (else empty), the selected
application and device-profile ids, and `isDisabled = false`; the two
concrete spec rows produce `description = ""` and
`description = "hallway unit"`. -/
theorem C3_request_fields :
    (∀ (appId profId c0 c1 : String) (rest : List String),
        mkDevice (c0 :: c1 :: rest) appId profId
          = { devEui := c0, name := c1, description := rest.headD "",
              applicationId := appId, deviceProfileId := profId, isDisabled := false })
    ∧ (∀ (appId profId : String) (oracle : Nat → Bool) (record : List String)
          (rows : List (List String)) (callIdx : Nat),
        2 ≤ record.length →
        (processLoop appId profId oracle (record :: rows) callIdx).2.head?
          = some { device := mkDevice record appId profId, ok := oracle callIdx })
    ∧ mkDevice ["04ABEF0123456789", "sensor-1"] "a" "p"
        = { devEui := "04ABEF0123456789", name := "sensor-1", description := "",
            applicationId := "a", deviceProfileId := "p", isDisabled := false }
    ∧ mkDevice ["04ABEF0123456789", "sensor-1", "hallway unit"] "a" "p"
        = { devEui := "04ABEF0123456789", name := "sensor-1", description := "hallway unit",
            applicationId := "a", deviceProfileId := "p", isDisabled := false } := by
  refine ⟨?_, ?_, by decide, by decide⟩
  · intro appId profId c0 c1 rest
    cases rest <;> simp [mkDevice]
  · intro appId profId oracle record rows callIdx h
    have h2 : ¬ record.length < 2 := by omega
    simp [processLoop, h2]

/-- Witness for C3 at the concrete spec row. -/
theorem C3_witness :
    2 ≤ (["04ABEF0123456789","sensor-1"] : List String).length
    ∧ (processLoop "a" "p" (fun _ => true) [["04ABEF0123456789","sensor-1"]] 0).2.head?
        = some { device := mkDevice ["04ABEF0123456789","sensor-1"] "a" "p", ok := true } :=
  ⟨by decide,
    C3_request_fields.2.1 "a" "p" (fun _ => true) ["04ABEF0123456789","sensor-1"] [] 0
      (by decide)⟩

/-! ## C4: short-row skip rule -/

/-- Claim C4: a row with fewer than 2 cells is skipped silently: no call
is issued, the created counter and call index are unchanged, and the loop
continues; concretely a file containing only `["04ABEF0123456789"]`
yields `created = 0`, no calls and no error. -/
theorem C4_short_row_skip :
    (∀ (appId profId : String) (oracle : Nat → Bool) (record : List String)
        (rows : List (List String)) (callIdx : Nat),
      record.length < 2 →
      processLoop appId profId oracle (record :: rows) callIdx
        = processLoop appId profId oracle rows callIdx)
    ∧ (∀ oracle : Nat → Bool,
        processCSV "a" "p" oracle (Except.ok [["04ABEF0123456789"]])
          = some (.devicesCreated 0, [])) := by
  refine ⟨?_, fun oracle => rfl⟩
  intro _ _ _ record rows callIdx h
  simp [processLoop, h]

/-- Witness for C4 at the one-cell spec row. -/
theorem C4_witness :
    (["04ABEF0123456789"] : List String).length < 2
    ∧ processLoop "a" "p" (fun _ => true) [["04ABEF0123456789"]] 0
        = processLoop "a" "p" (fun _ => true) [] 0 :=
  ⟨by decide, C4_short_row_skip.1 "a" "p" (fun _ => true) ["04ABEF0123456789"] [] 0 (by decide)⟩

/-! ## C5: read failure is atomic -/

/-- Claim C5: when the file open/parse fails, `processCSV` returns the
error immediately with an empty call trace (no device created, no call
issued), and the wizard maps the error message to the Error state,
leaving the created counter untouched. -/
theorem C5_read_failure_atomic :
    (∀ (appId profId : String) (oracle : Nat → Bool) (e : String),
        processCSV appId profId oracle (Except.error e) = some (.errorMsg e, []))
    ∧ (∀ (m : Model) (e : String),
        (update m (.errorMsg e)).1.state = State.error
          ∧ (update m (.errorMsg e)).1.err = some e
          ∧ (update m (.errorMsg e)).1.devicesCreated = m.devicesCreated) :=
  ⟨fun _ _ _ _ => rfl, fun _ _ => ⟨rfl, rfl, rfl⟩⟩

/-! ## C9: header-detection indexing safety -/

/-- Claim C9: the `records[0][0]` access in the header check is guarded
only by the record list being non-empty: when row 0 has at least one cell
the access is in bounds and `processCSV` proceeds; when row 0 has no
cells the total embedding's `Option` indexing hits its `none` branch
(Go's index-out-of-range panic). -/
theorem C9_header_indexing_safety :
    (∀ (records : List (List String)) (r0 : List String) (rest : List (List String)),
        records = r0 :: rest → r0 ≠ [] → ∃ s, startIndex records = some s)
    ∧ (∀ rest : List (List String), startIndex ([] :: rest) = none)
    ∧ (∀ (appId profId : String) (oracle : Nat → Bool) (rest : List (List String)),
        processCSV appId profId oracle (Except.ok ([] :: rest)) = none)
    ∧ (∀ (appId profId : String) (oracle : Nat → Bool) (records : List (List String))
          (r0 : List String) (rest : List (List String)),
        records = r0 :: rest → r0 ≠ [] →
        (processCSV appId profId oracle (Except.ok records)).isSome = true) := by
  have hsome : ∀ (r0 : List String) (rest : List (List String)), r0 ≠ [] →
      ∃ s, startIndex (r0 :: rest) = some s := by
    intro r0 rest h
    cases r0 with
    | nil => exact absurd rfl h
    | cons c cs => exact ⟨if isHexString c then 0 else 1, by simp [startIndex]⟩
  refine ⟨?_, fun rest => rfl, fun _ _ _ _ => rfl, ?_⟩
  · rintro records r0 rest rfl h
    exact hsome r0 rest h
  · rintro appId profId oracle records r0 rest rfl h
    obtain ⟨s, hs⟩ := hsome r0 rest h
    simp [processCSV, hs]

/-- Witness for C9 at a one-cell first row. -/
theorem C9_witness :
    ([["04","n"]] : List (List String)) = ["04","n"] :: []
    ∧ (["04","n"] : List String) ≠ []
    ∧ (processCSV "a" "p" (fun _ => true) (Except.ok [["04","n"]])).isSome = true :=
  ⟨rfl, by decide,
    C9_header_indexing_safety.2.2.2 "a" "p" (fun _ => true) [["04","n"]] ["04","n"] [] rfl
      (by decide)⟩

/-! ## C6: selection-list loading -/

/-- Counterexample for C6 as stated: the loaders do not guarantee a
non-empty id — a response record whose id field is empty is projected to
a selection item with an empty id. -/
theorem C6_counterexample :
    ¬ (∀ rs : List TenantRecord, ∀ it ∈ tenantsToItems rs, it.id ≠ "") := by
  intro h
  exact h [{ name := "t", id := "" }] { title := "t", desc := "t", id := "" } (by decide) rfl

/-- Claim C6 (amended): a successful list response with K records is
projected to exactly K selection items, order-preserving, with field
mapping title = description = name for tenants and device profiles and
title = name, description = description-field for applications; each
item's id equals the corresponding record's id, so the ids are all
non-empty whenever the response's ids are. -/
theorem C6_selection_loading :
    (∀ (rs : List TenantRecord) (i : Nat),
        (tenantsToItems rs)[i]?
          = (rs[i]?).map fun t => { title := t.name, desc := t.name, id := t.id })
    ∧ (∀ rs : List TenantRecord, (tenantsToItems rs).length = rs.length)
    ∧ (∀ (rs : List AppRecord) (i : Nat),
        (appsToItems rs)[i]?
          = (rs[i]?).map fun a => { title := a.name, desc := a.description, id := a.id })
    ∧ (∀ rs : List AppRecord, (appsToItems rs).length = rs.length)
    ∧ (∀ (rs : List ProfileRecord) (i : Nat),
        (profilesToItems rs)[i]?
          = (rs[i]?).map fun p => { title := p.name, desc := p.name, id := p.id })
    ∧ (∀ rs : List ProfileRecord, (profilesToItems rs).length = rs.length)
    ∧ (∀ rs : List TenantRecord,
        (∀ r ∈ rs, r.id ≠ "") → ∀ it ∈ tenantsToItems rs, it.id ≠ "")
    ∧ (∀ rs : List AppRecord,
        (∀ r ∈ rs, r.id ≠ "") → ∀ it ∈ appsToItems rs, it.id ≠ "")
    ∧ (∀ rs : List ProfileRecord,
        (∀ r ∈ rs, r.id ≠ "") → ∀ it ∈ profilesToItems rs, it.id ≠ "")
    ∧ (∀ resp, loadTenantsResult (Except.ok resp) = .tenantsLoaded (tenantsToItems resp))
    ∧ (∀ resp, loadApplicationsResult (Except.ok resp) = .appsLoaded (appsToItems resp))
    ∧ (∀ resp, loadProfilesResult (Except.ok resp) = .profilesLoaded (profilesToItems resp)) := by
  refine ⟨?_, ?_, ?_, ?_, ?_, ?_, ?_, ?_, ?_, fun _ => rfl, fun _ => rfl, fun _ => rfl⟩
  · intro rs i; exact List.getElem?_map _ rs i
  · intro rs; simp [tenantsToItems]
  · intro rs i; exact List.getElem?_map _ rs i
  · intro rs; simp [appsToItems]
  · intro rs i; exact List.getElem?_map _ rs i
  · intro rs; simp [profilesToItems]
  · intro rs h it hit
    obtain ⟨t, ht, rfl⟩ := List.mem_map.mp hit
    simpa using h t ht
  · intro rs h it hit
    obtain ⟨a, ha, rfl⟩ := List.mem_map.mp hit
    simpa using h a ha
  · intro rs h it hit
    obtain ⟨p, hp, rfl⟩ := List.mem_map.mp hit
    simpa using h p hp

/-- Witness for the amended C6 at a concrete tenant response. -/
theorem C6_witness :
    (∀ r ∈ [TenantRecord.mk "west" "id-1"], r.id ≠ "")
    ∧ ∀ it ∈ tenantsToItems [TenantRecord.mk "west" "id-1"], it.id ≠ "" :=
  ⟨by decide, C6_selection_loading.2.2.2.2.2.2.1 [TenantRecord.mk "west" "id-1"] (by decide)⟩

/-! ## C10: global quit interception -/

/-- Claim C10: in every state a `q` or `ctrl+c` key press returns
`tea.Quit` (closing the session exactly when one is open) with the model
unchanged, before the key can reach the focused component; consequently
the letter q can never be typed into the API-token input. -/
theorem C10_global_quit :
    (∀ m : Model, update m (.key "q") = (m, .quit m.sessionOpen))
    ∧ (∀ m : Model, update m (.key "ctrl+c") = (m, .quit m.sessionOpen))
    ∧ (∀ (m : Model) (msg : Msg),
        "q" ∉ m.inputKeys → "q" ∉ (update m msg).1.inputKeys) := by
  have hHE : ∀ m : Model, (handleEnter m).1.inputKeys = m.inputKeys := by
    intro m
    unfold handleEnter
    cases m.state <;> dsimp only <;> (try split) <;> rfl
  refine ⟨fun m => rfl, fun m => rfl, ?_⟩
  intro m msg h
  cases msg with
  | key k =>
    by_cases hq : k = "ctrl+c" ∨ k = "q"
    · simpa [update, hq] using h
    · by_cases he : k = "enter"
      · subst he
        simp only [update, if_neg hq, if_true]
        rw [hHE]
        exact h
      · have hk : k ≠ "q" := fun hk => hq (Or.inr hk)
        simp only [update, if_neg hq, if_neg he]
        unfold stateDispatch
        cases m.state <;> dsimp only <;> simp [h, hk, Ne.symm hk]
  | cursor i =>
    simp only [update]
    unfold stateDispatch
    cases m.state <;> dsimp only <;> simpa using h
  | fileSelected path =>
    simp only [update]
    unfold stateDispatch
    cases m.state <;> dsimp only <;> simpa using h
  | connect dialOk =>
    cases dialOk <;> simpa [update, handleConnect] using h
  | tenantsLoaded items => simpa [update] using h
  | appsLoaded items => simpa [update] using h
  | profilesLoaded items => simpa [update] using h
  | devicesCreated n => simpa [update] using h
  | errorMsg e => simpa [update] using h

/-- Witness for C10: a non-quit key in the initial state does not put q
into the token input. -/
theorem C10_witness :
    "q" ∉ initialModel.inputKeys
    ∧ "q" ∉ (update initialModel (.key "x")).1.inputKeys :=
  ⟨by decide, C10_global_quit.2.2 initialModel (.key "x") (by decide)⟩

/-! ## The C7 invariant machinery -/

/-- Boolean to propositional id-goodness. -/
theorem goodItemsP_of_B {items : List Item} (h : goodItemsB items = true) :
    goodItemsP items := by
  intro it hit
  have := List.all_eq_true.mp h it hit
  simpa using this

/-- `Inv` only depends on the listed fields of the model. -/
theorem Inv_congr (m m' : Model) (P : List Pending)
    (h1 : m'.state = m.state) (h2 : m'.tenantItems = m.tenantItems)
    (h3 : m'.appItems = m.appItems) (h4 : m'.profileItems = m.profileItems)
    (h5 : m'.selectedTenant = m.selectedTenant) (h6 : m'.selectedApp = m.selectedApp)
    (h7 : m'.selectedProfile = m.selectedProfile)
    (hinv : Inv m P) : Inv m' P := by
  obtain ⟨hT, hA, hPr, hs1, hs2, hs3, hP⟩ := hinv
  refine ⟨by rw [h2]; exact hT, by rw [h3]; exact hA, by rw [h4]; exact hPr, ?_, ?_, ?_, ?_⟩
  · rw [h1, h5]; exact hs1
  · rw [h1, h5, h6]; exact hs2
  · rw [h1, h5, h6, h7]; exact hs3
  · intro p hp
    have := hP p hp
    cases p <;> simp only [pendingInv, h5, h6] at this ⊢ <;> exact this

/-- The invariant holds initially. -/
theorem inv_init : Inv initialModel [] := by
  refine ⟨?_, ?_, ?_, ?_, ?_, ?_, ?_⟩ <;> intro x <;> simp [initialModel, goodItemsP] at x ⊢

/-- One user event preserves the invariant. -/
theorem inv_user_step (m : Model) (P : List Pending) (msg : Msg)
    (hinv : Inv m P) (hu : userEvent msg) (hg : GoodTrace msg) :
    Inv (update m msg).1 (P ++ emitted (update m msg).2) := by
  obtain ⟨hT, hA, hPr, hs1, hs2, hs3, hP⟩ := hinv
  cases msg with
  | key k =>
    by_cases hq : k = "ctrl+c" ∨ k = "q"
    · simp only [update, if_pos hq, emitted, List.append_nil]
      exact ⟨hT, hA, hPr, hs1, hs2, hs3, hP⟩
    · by_cases he : k = "enter"
      · subst he
        simp only [update, if_neg hq, if_true]
        cases hst : m.state with
        | connecting =>
          simp only [handleEnter, hst]
          split
          · simp only [emitted, List.append_nil]
            exact ⟨hT, hA, hPr, hs1, hs2, hs3, hP⟩
          · simp only [emitted]
            refine ⟨hT, hA, hPr, ?_, ?_, ?_, ?_⟩
            · intro hcon; cases hcon
            · intro hcon; cases hcon
            · intro hcon; cases hcon
            · intro p hp
              rcases List.mem_append.mp hp with hl | hr
              · have := hP p hl
                cases p <;> exact this
              · rcases List.mem_singleton.mp hr with rfl
                trivial
        | tenantSelect =>
          simp only [handleEnter, hst]
          cases hit : m.tenantItems[m.tenantCursor]? with
          | none =>
            simp only [emitted, List.append_nil]
            exact ⟨hT, hA, hPr, hs1, hs2, hs3, hP⟩
          | some it =>
            have hid : it.id ≠ "" := hT it (List.getElem?_mem hit)
            simp only [emitted]
            refine ⟨hT, hA, hPr, ?_, ?_, ?_, ?_⟩
            · intro hcon; cases hcon
            · intro hcon; cases hcon
            · intro hcon; cases hcon
            · intro p hp
              rcases List.mem_append.mp hp with hl | hr
              · have := hP p hl
                cases p with
                | loadApplications t => exact ⟨this.1, hid⟩
                | loadDeviceProfiles t => exact ⟨hid, this.2⟩
                | runImport a pr f => exact ⟨this.1, this.2.1, this.2.2.1, hid⟩
                | _ => trivial
              · rcases List.mem_singleton.mp hr with rfl
                exact ⟨hid, hid⟩
        | applicationSelect =>
          simp only [handleEnter, hst]
          cases hit : m.appItems[m.appCursor]? with
          | none =>
            simp only [emitted, List.append_nil]
            exact ⟨hT, hA, hPr, hs1, hs2, hs3, hP⟩
          | some it =>
            have hid : it.id ≠ "" := hA it (List.getElem?_mem hit)
            have hten : m.selectedTenant ≠ "" := hs1 hst
            simp only [emitted]
            refine ⟨hT, hA, hPr, ?_, ?_, ?_, ?_⟩
            · intro _; exact hten
            · intro hcon; cases hcon
            · intro hcon; cases hcon
            · intro p hp
              rcases List.mem_append.mp hp with hl | hr
              · have := hP p hl
                cases p with
                | loadApplications t => exact ⟨this.1, this.2⟩
                | loadDeviceProfiles t => exact ⟨this.1, hid⟩
                | runImport a pr f => exact ⟨this.1, this.2.1, this.2.2.1, this.2.2.2⟩
                | _ => trivial
              · rcases List.mem_singleton.mp hr with rfl
                exact ⟨hten, hid⟩
        | deviceProfileSelect =>
          simp only [handleEnter, hst]
          cases hit : m.profileItems[m.profileCursor]? with
          | none =>
            simp only [emitted, List.append_nil]
            exact ⟨hT, hA, hPr, hs1, hs2, hs3, hP⟩
          | some it =>
            have hid : it.id ≠ "" := hPr it (List.getElem?_mem hit)
            have hten := (hs2 hst).1
            have happ := (hs2 hst).2
            simp only [emitted, List.append_nil]
            refine ⟨hT, hA, hPr, ?_, ?_, ?_, ?_⟩
            · intro hcon; cases hcon
            · intro hcon; cases hcon
            · intro _; exact ⟨hten, happ, hid⟩
            · intro p hp
              have := hP p hp
              cases p with
              | loadApplications t => exact ⟨this.1, this.2⟩
              | loadDeviceProfiles t => exact ⟨this.1, this.2⟩
              | runImport a pr f => exact ⟨this.1, this.2.1, this.2.2.1, this.2.2.2⟩
              | _ => trivial
        | fileSelect =>
          simp only [handleEnter, hst, emitted, List.append_nil]
          exact ⟨hT, hA, hPr, hs1, hs2, hs3, hP⟩
        | processing =>
          simp only [handleEnter, hst, emitted, List.append_nil]
          exact ⟨hT, hA, hPr, hs1, hs2, hs3, hP⟩
        | complete =>
          simp only [handleEnter, hst, emitted, List.append_nil]
          exact ⟨hT, hA, hPr, hs1, hs2, hs3, hP⟩
        | error =>
          simp only [handleEnter, hst, emitted, List.append_nil]
          exact ⟨hT, hA, hPr, hs1, hs2, hs3, hP⟩
      · simp only [update, if_neg hq, if_neg he]
        cases hst : m.state <;>
          simp only [stateDispatch, hst, emitted, List.append_nil] <;>
          exact Inv_congr m _ P (by rw [hst]) rfl rfl rfl rfl rfl rfl
            ⟨hT, hA, hPr, hs1, hs2, hs3, hP⟩
  | cursor i =>
    simp only [update]
    cases hst : m.state <;>
      simp only [stateDispatch, hst, emitted, List.append_nil] <;>
      exact Inv_congr m _ P (by rw [hst]) rfl rfl rfl rfl rfl rfl
        ⟨hT, hA, hPr, hs1, hs2, hs3, hP⟩
  | fileSelected path =>
    have hpath : path ≠ "" := by
      simpa [GoodTrace, GoodMsgB] using hg
    simp only [update]
    cases hst : m.state with
    | fileSelect =>
      obtain ⟨hten, happ, hprof⟩ := hs3 hst
      simp only [stateDispatch, hst, emitted]
      refine ⟨hT, hA, hPr, hs1, hs2, hs3, ?_⟩
      intro p hp
      rcases List.mem_append.mp hp with hl | hr
      · exact hP p hl
      · rcases List.mem_singleton.mp hr with rfl
        exact ⟨happ, hprof, hpath, hten⟩
    | connecting =>
      simp only [stateDispatch, hst, emitted, List.append_nil]
      exact ⟨hT, hA, hPr, hs1, hs2, hs3, hP⟩
    | tenantSelect =>
      simp only [stateDispatch, hst, emitted, List.append_nil]
      exact ⟨hT, hA, hPr, hs1, hs2, hs3, hP⟩
    | applicationSelect =>
      simp only [stateDispatch, hst, emitted, List.append_nil]
      exact ⟨hT, hA, hPr, hs1, hs2, hs3, hP⟩
    | deviceProfileSelect =>
      simp only [stateDispatch, hst, emitted, List.append_nil]
      exact ⟨hT, hA, hPr, hs1, hs2, hs3, hP⟩
    | processing =>
      simp only [stateDispatch, hst, emitted, List.append_nil]
      exact ⟨hT, hA, hPr, hs1, hs2, hs3, hP⟩
    | complete =>
      simp only [stateDispatch, hst, emitted, List.append_nil]
      exact ⟨hT, hA, hPr, hs1, hs2, hs3, hP⟩
    | error =>
      simp only [stateDispatch, hst, emitted, List.append_nil]
      exact ⟨hT, hA, hPr, hs1, hs2, hs3, hP⟩
  | connect dialOk => exact hu.elim
  | tenantsLoaded items => exact hu.elim
  | appsLoaded items => exact hu.elim
  | profilesLoaded items => exact hu.elim
  | devicesCreated n => exact hu.elim
  | errorMsg e => exact hu.elim

/-- One completion of a pending command preserves the invariant. -/
theorem inv_async_step (m : Model) (P : List Pending) (p : Pending) (msg : Msg)
    (hinv : Inv m P) (hp : p ∈ P) (hc : completes p msg) (hg : GoodTrace msg) :
    Inv (update m msg).1 (P.erase p ++ emitted (update m msg).2) := by
  obtain ⟨hT, hA, hPr, hs1, hs2, hs3, hP⟩ := hinv
  have hPe : ∀ q ∈ P.erase p, pendingInv m q := fun q hq => hP q (List.mem_of_mem_erase hq)
  have herr : ∀ e : String,
      Inv (update m (.errorMsg e)).1 (P.erase p ++ emitted (update m (.errorMsg e)).2) := by
    intro e
    simp only [update, emitted, List.append_nil]
    refine ⟨hT, hA, hPr, ?_, ?_, ?_, ?_⟩
    · intro hcon; cases hcon
    · intro hcon; cases hcon
    · intro hcon; cases hcon
    · intro q hq
      have := hPe q hq
      cases q <;> exact this
  cases p with
  | emitConnect =>
    obtain ⟨ok, rfl⟩ := hc
    cases ok with
    | true =>
      simp only [update, handleConnect, if_pos rfl, emitted]
      refine ⟨hT, hA, hPr, ?_, ?_, ?_, ?_⟩
      · intro h; exact hs1 h
      · intro h; exact hs2 h
      · intro h; exact hs3 h
      · intro q hq
        rcases List.mem_append.mp hq with hl | hr
        · have := hPe q hl
          cases q <;> exact this
        · rcases List.mem_singleton.mp hr with rfl
          trivial
    | false =>
      simp only [update, handleConnect, emitted]
      refine ⟨hT, hA, hPr, hs1, hs2, hs3, ?_⟩
      intro q hq
      rcases List.mem_append.mp hq with hl | hr
      · exact hPe q hl
      · rcases List.mem_singleton.mp hr with rfl
        trivial
  | emitError e =>
    rcases hc with rfl
    exact herr e
  | loadTenants =>
    obtain ⟨resp, rfl⟩ := hc
    cases resp with
    | error e => exact herr e
    | ok rs =>
      have hgood : goodItemsP (tenantsToItems rs) := by
        refine goodItemsP_of_B ?_
        simpa only [loadTenantsResult, GoodTrace, GoodMsgB] using hg
      simp only [loadTenantsResult, update, emitted, List.append_nil]
      refine ⟨hgood, hA, hPr, ?_, ?_, ?_, ?_⟩
      · intro hcon; cases hcon
      · intro hcon; cases hcon
      · intro hcon; cases hcon
      · intro q hq
        have := hPe q hq
        cases q <;> exact this
  | loadApplications t =>
    obtain ⟨resp, rfl⟩ := hc
    cases resp with
    | error e => exact herr e
    | ok rs =>
      have hten : m.selectedTenant ≠ "" := (hP _ hp).2
      have hgood : goodItemsP (appsToItems rs) := by
        refine goodItemsP_of_B ?_
        simpa only [loadApplicationsResult, GoodTrace, GoodMsgB] using hg
      simp only [loadApplicationsResult, update, emitted, List.append_nil]
      refine ⟨hT, hgood, hPr, ?_, ?_, ?_, ?_⟩
      · intro _; exact hten
      · intro hcon; cases hcon
      · intro hcon; cases hcon
      · intro q hq
        have := hPe q hq
        cases q <;> exact this
  | loadDeviceProfiles t =>
    obtain ⟨resp, rfl⟩ := hc
    cases resp with
    | error e => exact herr e
    | ok rs =>
      have hten : m.selectedTenant ≠ "" := (hP _ hp).1
      have happ : m.selectedApp ≠ "" := (hP _ hp).2
      have hgood : goodItemsP (profilesToItems rs) := by
        refine goodItemsP_of_B ?_
        simpa only [loadProfilesResult, GoodTrace, GoodMsgB] using hg
      simp only [loadProfilesResult, update, emitted, List.append_nil]
      refine ⟨hT, hA, hgood, ?_, ?_, ?_, ?_⟩
      · intro hcon; cases hcon
      · intro _; exact ⟨hten, happ⟩
      · intro hcon; cases hcon
      · intro q hq
        have := hPe q hq
        cases q <;> exact this
  | runImport a pr f =>
    obtain ⟨oracle, readResult, res, calls, heq, rfl⟩ := hc
    rcases processCSV_msg_shape a pr oracle readResult _ calls heq with ⟨n, rfl⟩ | ⟨e, rfl⟩
    · simp only [update, emitted, List.append_nil]
      refine ⟨hT, hA, hPr, ?_, ?_, ?_, ?_⟩
      · intro hcon; cases hcon
      · intro hcon; cases hcon
      · intro hcon; cases hcon
      · intro q hq
        have := hPe q hq
        cases q <;> exact this
    · exact herr e

/-- Every configuration reachable under well-formed environment responses
satisfies the invariant. -/
theorem reach_inv {m : Model} {P : List Pending} (h : Reach GoodTrace m P) : Inv m P := by
  induction h with
  | init => exact inv_init
  | user m P msg _ hu hg ih => exact inv_user_step m P msg ih hu hg
  | async m P p msg _ hp hc hg ih => exact inv_async_step m P p msg ih hp hc hg

/-- A complete successful wizard run with well-formed server responses
reaches `wizardRunModel` with the import in flight. -/
theorem reach_wizardRun : Reach GoodTrace wizardRunModel wizardRunPending := by
  have h0 : Reach GoodTrace initialModel [] := Reach.init
  have h1 := Reach.user _ _ (.key "t") h0 trivial rfl
  have h2 := Reach.user _ _ (.key "enter") h1 trivial rfl
  have h3 := Reach.async _ _ .emitConnect (.connect true) h2 (by decide) ⟨true, rfl⟩ rfl
  have h4 := Reach.async _ _ .loadTenants
    (.tenantsLoaded (tenantsToItems [⟨"ten","T"⟩])) h3 (by decide)
    ⟨Except.ok [⟨"ten","T"⟩], rfl⟩ rfl
  have h5 := Reach.user _ _ (.key "enter") h4 trivial rfl
  have h6 := Reach.async _ _ (.loadApplications "T")
    (.appsLoaded (appsToItems [⟨"app","d","A"⟩])) h5 (by decide)
    ⟨Except.ok [⟨"app","d","A"⟩], rfl⟩ rfl
  have h7 := Reach.user _ _ (.key "enter") h6 trivial rfl
  have h8 := Reach.async _ _ (.loadDeviceProfiles "T")
    (.profilesLoaded (profilesToItems [⟨"prof","P"⟩])) h7 (by decide)
    ⟨Except.ok [⟨"prof","P"⟩], rfl⟩ rfl
  have h9 := Reach.user _ _ (.key "enter") h8 trivial rfl
  have h10 := Reach.user _ _ (.fileSelected "devices.csv") h9 trivial rfl
  exact h10

/-- The same run against a server whose list responses carry empty `Id`
fields (no environment restriction): the import is issued with empty
application and device-profile ids. -/
theorem reach_emptyIdRun : Reach (fun _ => True) emptyIdRunModel emptyIdRunPending := by
  have h0 : Reach (fun _ => True) initialModel [] := Reach.init
  have h1 := Reach.user _ _ (.key "t") h0 trivial trivial
  have h2 := Reach.user _ _ (.key "enter") h1 trivial trivial
  have h3 := Reach.async _ _ .emitConnect (.connect true) h2 (by decide) ⟨true, rfl⟩ trivial
  have h4 := Reach.async _ _ .loadTenants
    (.tenantsLoaded (tenantsToItems [⟨"ten",""⟩])) h3 (by decide)
    ⟨Except.ok [⟨"ten",""⟩], rfl⟩ trivial
  have h5 := Reach.user _ _ (.key "enter") h4 trivial trivial
  have h6 := Reach.async _ _ (.loadApplications "")
    (.appsLoaded (appsToItems [⟨"app","d",""⟩])) h5 (by decide)
    ⟨Except.ok [⟨"app","d",""⟩], rfl⟩ trivial
  have h7 := Reach.user _ _ (.key "enter") h6 trivial trivial
  have h8 := Reach.async _ _ (.loadDeviceProfiles "")
    (.profilesLoaded (profilesToItems [⟨"prof",""⟩])) h7 (by decide)
    ⟨Except.ok [⟨"prof",""⟩], rfl⟩ trivial
  have h9 := Reach.user _ _ (.key "enter") h8 trivial trivial
  have h10 := Reach.user _ _ (.fileSelected "f.csv") h9 trivial trivial
  exact h10

/-! ## C7: wizard-context population -/

/-- Counterexample for C7 as stated: with no restriction on the remote
responses, a reachable run issues the import with an empty application id
(the code never checks a selected id or path for emptiness). -/
theorem C7_counterexample :
    ¬ (∀ (m : Model) (P : List Pending) (a pr f : String),
        Reach (fun _ => True) m P → Pending.runImport a pr f ∈ P → a ≠ "") := by
  intro h
  exact h emptyIdRunModel emptyIdRunPending "" "" "f.csv" reach_emptyIdRun (by decide) rfl

/-- Claim C7 (amended): whenever the importer is in flight, the selection
steps have all completed — and provided every id delivered in the list
responses and the chosen file path are non-empty, the recorded tenant id
and the import's application id, device-profile id and file path are all
non-empty. -/
theorem C7_context_invariant :
    ∀ (m : Model) (P : List Pending) (a pr f : String),
      Reach GoodTrace m P → Pending.runImport a pr f ∈ P →
      m.selectedTenant ≠ "" ∧ a ≠ "" ∧ pr ≠ "" ∧ f ≠ "" := by
  intro m P a pr f h hp
  have hinv := reach_inv h
  have hpend := hinv.2.2.2.2.2.2 _ hp
  exact ⟨hpend.2.2.2, hpend.1, hpend.2.1, hpend.2.2.1⟩

/-- Witness for the amended C7 on the concrete successful run. -/
theorem C7_witness :
    wizardRunModel.selectedTenant ≠ "" ∧ ("A" : String) ≠ ""
      ∧ ("P" : String) ≠ "" ∧ ("devices.csv" : String) ≠ "" :=
  C7_context_invariant wizardRunModel wizardRunPending "A" "P" "devices.csv"
    reach_wizardRun (by decide)

/-! ## C8: the Processing state is never entered -/

/-- No single step can move the wizard into `stateProcessing`. -/
theorem state_step_ne_processing (m : Model) (msg : Msg)
    (h : m.state ≠ State.processing) : (update m msg).1.state ≠ State.processing := by
  have hsd : ∀ msg' : Msg, (stateDispatch m msg').1.state = m.state := by
    intro msg'
    unfold stateDispatch
    cases hst : m.state <;> cases msg' <;> (try rfl) <;> exact hst
  cases msg with
  | key k =>
    by_cases hq : k = "ctrl+c" ∨ k = "q"
    · simpa [update, hq] using h
    · by_cases he : k = "enter"
      · subst he
        simp only [update, if_neg hq, if_true]
        unfold handleEnter
        cases hst : m.state <;> dsimp only <;> (try split) <;> simp_all
      · simp only [update, if_neg hq, if_neg he]
        rw [hsd]
        exact h
  | connect dialOk =>
    cases dialOk <;> simpa [update, handleConnect] using h
  | tenantsLoaded items => simp [update]
  | appsLoaded items => simp [update]
  | profilesLoaded items => simp [update]
  | devicesCreated n => simp [update]
  | errorMsg e => simp [update]
  | cursor i =>
    simp only [update]
    rw [hsd]
    exact h
  | fileSelected path =>
    simp only [update]
    rw [hsd]
    exact h

/-- Claim C8 (code bug): the code defines `stateProcessing` and a view for
it, but never assigns it: when a file is chosen in `stateFileSelect` the
model is returned unchanged (still `stateFileSelect`) alongside the run
of the importer, and no reachable configuration of the wizard is ever in
the Processing state. -/
theorem C8_processing_unreachable :
    (∀ (m : Model) (path : String), m.state = State.fileSelect →
        update m (.fileSelected path)
          = (m, .pend (.runImport m.selectedApp m.selectedProfile path)))
    ∧ (∀ (G : Msg → Prop) (m : Model) (P : List Pending),
        Reach G m P → m.state ≠ State.processing) := by
  constructor
  · intro m path h
    simp only [update, stateDispatch, h]
  · intro G m P h
    induction h with
    | init => intro hcon; cases hcon
    | user m P msg _ _ _ ih => exact state_step_ne_processing m msg ih
    | async m P p msg _ _ _ _ ih => exact state_step_ne_processing m msg ih

/-- Witness for C8 at the concrete post-file-choice configuration. -/
theorem C8_witness :
    wizardRunModel.state = State.fileSelect
    ∧ update wizardRunModel (.fileSelected "d.csv")
        = (wizardRunModel,
            .pend (.runImport wizardRunModel.selectedApp wizardRunModel.selectedProfile
              "d.csv")) :=
  ⟨rfl, C8_processing_unreachable.1 wizardRunModel "d.csv" rfl⟩

end ChirpStack
